import Mathlib

/-
Verification of the job-control core of the tiny shell in src/tsh.c.

The job table, its helper routines and the signal-facing entry points are
embedded shallowly: the global array `struct job_t jobs[MAXJOBS]` becomes a
`List job_t`, the globals `nextjid` and `check_fg` become explicit state,
`printf` output becomes a list of strings, calls to `kill(target, sig)`
become a recorded list of (target, signal) pairs, and the return value of
`kill` (unknown to the program) becomes an explicit parameter.  An
out-of-bounds array access or a NULL-pointer dereference in the C code is
modelled by returning `none`.
-/

namespace Tsh

/-- MAXJOBS from tsh.c: max jobs at any point in time. -/
def MAXJOBS : Nat := 16

/-- Job state UNDEF (0) from tsh.c. -/
def UNDEF : Int := 0

/-- Job state FG (1): running in foreground. -/
def FG : Int := 1

/-- Job state BG (2): running in background. -/
def BG : Int := 2

/-- Job state ST (3): stopped. -/
def ST : Int := 3

/-- Signal number of SIGINT on Linux. -/
def SIGINT : Int := 2

/-- Signal number of SIGKILL on Linux. -/
def SIGKILL : Int := 9

/-- Signal number of SIGCONT on Linux. -/
def SIGCONT : Int := 18

/-- Signal number of SIGTSTP on Linux. -/
def SIGTSTP : Int := 20

/-- struct job_t from tsh.c: pid, jid, state, cmdline. -/
structure job_t where
  pid : Int
  jid : Int
  state : Int
  cmdline : String
deriving DecidableEq

/-- A slot after clearjob: pid = 0, jid = 0, state = UNDEF, empty cmdline. -/
def emptyJob : job_t := ⟨0, 0, UNDEF, ""⟩

/-- initjobs: the job list after initialisation, MAXJOBS cleared slots. -/
def initjobs : List job_t := List.replicate MAXJOBS emptyJob

/-- The shell's global mutable state relevant to the job table:
the jobs array and the handle allocator nextjid. -/
structure ShellState where
  jobs : List job_t
  nextjid : Int
deriving DecidableEq

/-- The globals right after initjobs(jobs): empty table, nextjid = 1. -/
def initState : ShellState := ⟨initjobs, 1⟩

/-- maxjid from tsh.c: largest allocated job ID over all slots
(cleared slots carry jid 0). -/
def maxjid (slots : List job_t) : Int :=
  slots.foldl (fun m j => if j.jid > m then j.jid else m) 0

/-- Read jobs[idx] for a C int index: out of bounds yields none
(an out-of-bounds access in the C program). -/
def slotGet (slots : List job_t) (idx : Int) : Option job_t :=
  if idx < 0 then none else slots.get? idx.toNat

/-- Write through jobs[idx] with an update function; out of bounds
yields none (undefined behaviour in the C program). -/
def slotSetInt (slots : List job_t) (idx : Int) (f : job_t → job_t) :
    Option (List job_t) :=
  match slotGet slots idx with
  | none => none
  | some j => some (slots.set idx.toNat (f j))

/-- The slot-filling loop of addjob: find the first slot with pid 0 and
fill it with the new job; none if every slot is occupied. -/
def addjobSlots : List job_t → Int → Int → Int → String → Option (List job_t)
  | [], _, _, _, _ => none
  | j :: rest, pid, njid, st, cmd =>
    if j.pid = 0 then
      some ({ pid := pid, jid := njid, state := st, cmdline := cmd } :: rest)
    else
      (addjobSlots rest pid njid st cmd).map (fun l => j :: l)

/-- addjob from tsh.c: rejects pid < 1; fills the first empty slot with
jid = nextjid, then advances nextjid (wrapping to 1 past MAXJOBS);
returns the updated state and the C function's 1/0 result. -/
def addjob (s : ShellState) (pid st : Int) (cmd : String) : ShellState × Bool :=
  if pid < 1 then (s, false)
  else
    match addjobSlots s.jobs pid s.nextjid st cmd with
    | some slots2 =>
      (⟨slots2, if s.nextjid + 1 > (MAXJOBS : Int) then 1 else s.nextjid + 1⟩, true)
    | none => (s, false)

/-- The slot-clearing loop of deletejob: clear the first slot whose pid
matches; none if no slot matches. -/
def deletejobSlots : List job_t → Int → Option (List job_t)
  | [], _ => none
  | j :: rest, pid =>
    if j.pid = pid then some (emptyJob :: rest)
    else (deletejobSlots rest pid).map (fun l => j :: l)

/-- deletejob from tsh.c: rejects pid < 1; clears the first slot whose pid
matches and resets nextjid to maxjid(jobs) + 1; returns the updated state
and the C function's 1/0 result. -/
def deletejob (s : ShellState) (pid : Int) : ShellState × Bool :=
  if pid < 1 then (s, false)
  else
    match deletejobSlots s.jobs pid with
    | some slots2 => (⟨slots2, maxjid slots2 + 1⟩, true)
    | none => (s, false)

/-- fgpid from tsh.c: pid of the first slot in state FG, else 0. -/
def fgpid (slots : List job_t) : Int :=
  match slots.find? (fun j => j.state == FG) with
  | some j => j.pid
  | none => 0

/-- getjobpid from tsh.c: first slot whose pid matches; pid < 1 gives NULL. -/
def getjobpid (slots : List job_t) (pid : Int) : Option job_t :=
  if pid < 1 then none else slots.find? (fun j => j.pid == pid)

/-- Index form of getjobpid, used where the C code mutates through the
returned pointer. -/
def getjobpidIdx (slots : List job_t) (pid : Int) : Option Nat :=
  if pid < 1 then none else slots.findIdx? (fun j => j.pid == pid)

/-- getjobjid from tsh.c: first slot whose jid matches; jid < 1 gives NULL. -/
def getjobjid (slots : List job_t) (jid : Int) : Option job_t :=
  if jid < 1 then none else slots.find? (fun j => j.jid == jid)

/-- pid2jid from tsh.c: jid of the first slot whose pid matches, else 0. -/
def pid2jid (slots : List job_t) (pid : Int) : Int :=
  if pid < 1 then 0
  else
    match slots.find? (fun j => j.pid == pid) with
    | some j => j.jid
    | none => 0

/-- A child status word as inspected by WIFEXITED / WIFSIGNALED /
WIFSTOPPED and WTERMSIG in sigchld_handler. -/
inductive WStatus where
  | exited (code : Int)
  | signaled (sg : Int)
  | stopped (sg : Int)
deriving DecidableEq

/-- One pending child-state change, as returned by one successful
waitpid(-1, &status, WNOHANG|WUNTRACED) call. -/
structure ChildEvent where
  pid : Int
  status : WStatus
deriving DecidableEq

/-- One iteration of the reaping loop in sigchld_handler: compute
jid = pid2jid(pid), read jobs[jid-1].state (none when jid-1 is out of
bounds), set check_fg when that slot is in state FG, then classify the
status word exactly as the C branches do.  Note the code deletes the job
for WIFEXITED, and for WIFSIGNALED only when WTERMSIG(status) == SIGINT;
for WIFSTOPPED it writes ST through the getjobpid pointer (none models a
NULL dereference). -/
def sigchldOne (s : ShellState) (cf : Int) (out : List String)
    (ev : ChildEvent) : Option (ShellState × Int × List String) :=
  let jid := pid2jid s.jobs ev.pid
  match slotGet s.jobs (jid - 1) with
  | none => none
  | some sj =>
    let cf2 := if sj.state = FG then 1 else cf
    match ev.status with
    | WStatus.exited _ => some ((deletejob s ev.pid).1, cf2, out)
    | WStatus.signaled sg =>
      if sg = SIGINT then
        some ((deletejob s ev.pid).1, cf2,
          out ++ ["job [" ++ toString jid ++ "] (" ++ toString ev.pid ++
                  ") terminated by signal " ++ toString SIGINT ++ "\n"])
      else
        some (s, cf2, out)
    | WStatus.stopped _ =>
      match getjobpidIdx s.jobs ev.pid with
      | none => none
      | some i =>
        match s.jobs.get? i with
        | none => none
        | some j =>
          some (⟨s.jobs.set i { j with state := ST }, s.nextjid⟩, cf2,
            out ++ ["job [" ++ toString jid ++ "] (" ++ toString ev.pid ++
                    ") stopped by signal " ++ toString SIGTSTP ++ "\n"])

/-- The while loop of sigchld_handler over the queue of pending events. -/
def sigchldRun : ShellState → Int → List String → List ChildEvent →
    Option (ShellState × Int × List String)
  | s, cf, out, [] => some (s, cf, out)
  | s, cf, out, ev :: rest =>
    match sigchldOne s cf out ev with
    | none => none
    | some (s2, cf2, out2) => sigchldRun s2 cf2 out2 rest

/-- sigchld_handler from tsh.c, applied to the list of currently pending
child-state changes.  check_fg is set to 0 on entry (line 462).  Returns
the final globals, the final check_fg, and the printed lines; none models
an out-of-bounds access or NULL dereference. -/
def sigchld_handler (s : ShellState) (evs : List ChildEvent) :
    Option (ShellState × Int × List String) :=
  sigchldRun s 0 [] evs

/-- Result of the shell surviving a handler, or exiting through
unix_error(msg) (which prints the message and calls exit(1)). -/
inductive Outcome where
  | ok : Outcome
  | exitedWithError (code : Int) (msg : String) : Outcome
deriving DecidableEq

/-- sigint_handler from tsh.c.  killRet is the (externally determined)
return value of the kill call.  Returns the list of kill requests issued
as (target, signal) pairs — unconditionally [(-fgpid(jobs), SIGINT)] —
and whether the shell survives. -/
def sigint_handler (slots : List job_t) (killRet : Int) :
    List (Int × Int) × Outcome :=
  let pid := fgpid slots
  ([(-pid, SIGINT)],
   if killRet < 0 then Outcome.exitedWithError 1 "kill error\n" else Outcome.ok)

/-- sigtstp_handler from tsh.c: issues kill(-fgpid(jobs), SIGTSTP), exits
through unix_error if killRet < 0, and otherwise executes
jobs[pid2jid(pid)-1].state = ST.  The final component is the resulting
jobs array; none models the out-of-bounds write when pid2jid(pid)-1 is
not a valid index. -/
def sigtstp_handler (slots : List job_t) (killRet : Int) :
    List (Int × Int) × Outcome × Option (List job_t) :=
  let pid := fgpid slots
  if killRet < 0 then
    ([(-pid, SIGTSTP)], Outcome.exitedWithError 1 "kill error\n", some slots)
  else
    ([(-pid, SIGTSTP)], Outcome.ok,
      slotSetInt slots (pid2jid slots pid - 1) (fun j => { j with state := ST }))

/-- The digit-accumulation loop of atoi. -/
def atoiLoop : List Char → Int → Int
  | [], acc => acc
  | c :: cs, acc =>
    if c.isDigit then atoiLoop cs (acc * 10 + ((c.toNat - 48 : Nat) : Int))
    else acc

/-- C atoi: skip leading whitespace, optional sign, then decimal digits
up to the first non-digit ("" gives 0). -/
def atoi (s : String) : Int :=
  match s.toList.dropWhile (fun c => c = ' ' ∨ c = '\t' ∨ c = '\n') with
  | '-' :: rest => - atoiLoop rest 0
  | '+' :: rest => atoiLoop rest 0
  | cs => atoiLoop cs 0

/-- Observable result of one do_bgfg call: kill requests issued as
(target, signal) pairs, printed lines, resulting jobs array, and the
argument passed to waitfg when waitfg was called. -/
structure BgfgRes where
  kills : List (Int × Int)
  prints : List String
  jobs : List job_t
  waitfgArg : Option Int
deriving DecidableEq

/-- The body of do_bgfg after the C code has read c0 = argv[1][0] and
arg = atoi(argv[1]+1) (the same atoi value is recomputed for the jid
variable in the bg and fg branches).  Follows the source line by line:
validation first, then the bg branch (kill/state-write/printf on
jobs[jid-1] for the handle form, on jobs[pid2jid(pid)-1] for the pid
form), then the fg branch which additionally calls waitfg — with the
job's pid in the handle form but with the outer pid variable, still 0,
in the raw-pid form (the inner pid_t pid shadows it).  none models an
out-of-bounds jobs[jid-1] access. -/
def do_bgfg_core (slots : List job_t) (cmd : String) (c0 : Char) (arg : Int) :
    Option BgfgRes :=
  if (c0 < '0' ∨ c0 > '9') ∧ c0 ≠ '%' then
    some ⟨[], [cmd ++ ": argument must be a PID or %jobid\n"], slots, none⟩
  else if c0 = '%' ∧ getjobjid slots arg = none then
    some ⟨[], ["%" ++ toString arg ++ ": No such job\n"], slots, none⟩
  else if c0 ≠ '%' ∧ getjobpid slots arg = none then
    some ⟨[], ["(" ++ toString arg ++ "): No such process\n"], slots, none⟩
  else if cmd = "bg" then
    if c0 = '%' then
      match slotGet slots (arg - 1) with
      | none => none
      | some jm =>
        match slotSetInt slots (arg - 1) (fun j => { j with state := BG }) with
        | none => none
        | some slots2 =>
          some ⟨[(-jm.pid, SIGCONT)],
                ["[" ++ toString arg ++ "] (" ++ toString jm.pid ++ ") " ++
                 jm.cmdline],
                slots2, none⟩
    else
      let jid := pid2jid slots arg
      match slotGet slots (jid - 1) with
      | none => none
      | some jm =>
        match slotSetInt slots (jid - 1) (fun j => { j with state := BG }) with
        | none => none
        | some slots2 =>
          some ⟨[(-arg, SIGCONT)],
                ["[" ++ toString jid ++ "] (" ++ toString arg ++ ") " ++
                 jm.cmdline],
                slots2, none⟩
  else if cmd = "fg" then
    if c0 = '%' then
      match slotGet slots (arg - 1) with
      | none => none
      | some jm =>
        match slotSetInt slots (arg - 1) (fun j => { j with state := FG }) with
        | none => none
        | some slots2 =>
          some ⟨[(-jm.pid, SIGCONT)], [], slots2, some jm.pid⟩
    else
      let jid := pid2jid slots arg
      match slotSetInt slots (jid - 1) (fun j => { j with state := FG }) with
      | none => none
      | some slots2 =>
        some ⟨[(-arg, SIGCONT)], [], slots2, some 0⟩
  else
    some ⟨[], [], slots, none⟩

/-- do_bgfg from tsh.c: cmd is argv[0] ("bg" or "fg"), argv1 is argv[1]
(none when missing).  Reads argv[1][0] (the terminating NUL for an empty
string) and atoi(argv[1]+1), then runs the core. -/
def do_bgfg (slots : List job_t) (cmd : String) (argv1 : Option String) :
    Option BgfgRes :=
  match argv1 with
  | none => some ⟨[], [cmd ++ " requires PID or %jobid argument\n"], slots, none⟩
  | some a =>
    let c0 := match a.toList with
      | [] => Char.ofNat 0
      | c :: _ => c
    do_bgfg_core slots cmd c0 (atoi (String.mk (a.toList.drop 1)))

/-- waitfg from tsh.c.  The stream f gives the value of check_fg observed
after each return from pause() (check_fg is written by the handlers that
caused the wake-up; waitfg itself zeroes it on entry).  The result is the
number of pause() calls made and the value of check_fg when waitfg
returns: the code pauses, and if check_fg is still unset pauses exactly
once more, then returns unconditionally. -/
def waitfg (f : Nat → Bool) : Nat × Bool :=
  let c1 := f 0
  if c1 = false then (2, f 1) else (1, c1)

/-- A register or release operation on the job table, as in §4.1 of the
spec (register carries the pid, initial state and command line that
addjob receives; release carries the pid that deletejob receives). -/
inductive TableOp where
  | reg (pid st : Int) (cmd : String)
  | rel (pid : Int)
deriving DecidableEq

/-- Apply one table operation (discarding the boolean result). -/
def applyOp (s : ShellState) : TableOp → ShellState
  | TableOp.reg p st c => (addjob s p st c).1
  | TableOp.rel p => (deletejob s p).1

/-- Run a sequence of table operations from a starting state. -/
def runOps (s : ShellState) (ops : List TableOp) : ShellState :=
  ops.foldl applyOp s

/-- The handles (jid fields) of the live slots (pid not 0), in table order. -/
def liveJids (slots : List job_t) : List Int :=
  (slots.filter (fun j => j.pid != 0)).map job_t.jid

/-- Number of live slots in state FG. -/
def fgCount : List job_t → Nat
  | [] => 0
  | j :: rest => (if j.pid ≠ 0 ∧ j.state = FG then 1 else 0) + fgCount rest

/-- A run of table operations is foreground-guarded when every register
with state FG is issued at a moment with no live foreground job (the
discipline the shell's launch path enforces through waitfg). -/
def guardedRun : ShellState → List TableOp → Bool
  | _, [] => true
  | s, op :: rest =>
    (match op with
     | TableOp.reg _ st _ => !(st == FG) || (fgCount s.jobs == 0)
     | TableOp.rel _ => true) && guardedRun (applyOp s op) rest

/-- Index of the first slot with pid 0, the slot addjob fills. -/
def firstEmptyIdx : List job_t → Option Nat
  | [] => none
  | j :: rest =>
    if j.pid = 0 then some 0 else (firstEmptyIdx rest).map (fun i => i + 1)

/-- Index of the first slot whose pid matches, the slot deletejob clears. -/
def firstPidIdx : List job_t → Int → Option Nat
  | [], _ => none
  | j :: rest, pid =>
    if j.pid = pid then some 0 else (firstPidIdx rest pid).map (fun i => i + 1)

/-- Concrete state for C1: one background job with pid 5 and handle 1. -/
def c1state : ShellState := ⟨⟨5, 1, BG, "sleep"⟩ :: List.replicate 15 emptyJob, 2⟩

/-- Concrete table for C3: the job with handle 4 lives in slot 0 (a layout
addjob produces after handle recycling); slot 3 is empty. -/
def c3jobs : List job_t := ⟨100, 4, ST, "x"⟩ :: List.replicate 15 emptyJob

/-- Concrete table for C4: one stopped job with pid 12 and handle 1. -/
def c4jobs : List job_t := ⟨12, 1, ST, "y"⟩ :: List.replicate 15 emptyJob

/-- Concrete table for C5: one foreground job with pid 7. -/
def c5jobs : List job_t := ⟨7, 1, FG, "z"⟩ :: List.replicate 15 emptyJob

/-- Operations for C7: register three jobs, then release the one with
handle 2 (pid 2). -/
def c7ops : List TableOp :=
  [TableOp.reg 1 BG "a", TableOp.reg 2 BG "b", TableOp.reg 3 BG "c",
   TableOp.rel 2]

/-- Operations for C8: fill all 16 slots (handles 1..16, wrapping the
allocator to 1), release pids 16 and 2, then register pids 17 and 18. -/
def c8ops : List TableOp :=
  ((List.range 16).map (fun i => TableOp.reg ((i + 1 : Nat) : Int) BG "c")) ++
  [TableOp.rel 16, TableOp.rel 2, TableOp.reg 17 BG "c", TableOp.reg 18 BG "c"]

/-- Claim C1.  The claim says the Notification Handler deletes a Job on
any termination, normal or by any fatal signal.  The code only deletes
for normal exit and for termination by SIGINT: on the failing input — the
job with pid 5 terminated by signal 9 (SIGKILL) — the handler leaves the
table entirely unchanged and prints nothing, while the same event with
SIGINT deletes the job and prints the notice, exactly as the source's
WIFSIGNALED branch (tsh.c lines 489-494) reads. -/
theorem C1_signal_termination_divergence :
    sigchld_handler c1state [⟨5, WStatus.signaled SIGKILL⟩]
      = some (c1state, 0, []) ∧
    sigchld_handler c1state [⟨5, WStatus.signaled SIGINT⟩]
      = some (⟨List.replicate 16 emptyJob, 1⟩, 0,
              ["job [1] (5) terminated by signal 2\n"]) := by
  decide

/-- Claim C2.  The claim says that with no foreground job the interrupt
and stop relays perform no action.  In the code fgpid returns 0 and both
handlers unconditionally call kill(-0, sig) = kill(0, sig) — a signal to
the shell's own process group — and the stop relay then writes
jobs[pid2jid(0) - 1] = jobs[-1], an out-of-bounds store (modelled none). -/
theorem C2_no_fg_relay_still_acts :
    fgpid initjobs = 0 ∧
    sigint_handler initjobs 0 = ([(0, SIGINT)], Outcome.ok) ∧
    sigtstp_handler initjobs 0 = ([(0, SIGTSTP)], Outcome.ok, none) := by
  decide

/-- Counterexample to claim C3: in c3jobs the selector %4 resolves via
getjobjid to the live job with pid 100 in slot 0, yet `bg %4` sends the
continuation to -(jobs[3].pid) = 0, not to -100, and leaves the resolved
job's state at ST — the effect lands on slot 4-1 = 3, not on the resolved
job. -/
theorem C3_counterexample :
    getjobjid c3jobs 4 = some ⟨100, 4, ST, "x"⟩ ∧
    (do_bgfg c3jobs "bg" (some "%4")).map BgfgRes.kills = some [(0, SIGCONT)] ∧
    (do_bgfg c3jobs "bg" (some "%4")).map (fun r => slotGet r.jobs 0)
      = some (some ⟨100, 4, ST, "x"⟩) := by
  decide

/-- Claim C4.  The claim says the raw-pid form of bg/fg uses the pid n
denoted by the argument's digits.  The code computes atoi(argv[1]+1),
skipping the first character even when there is no % prefix: for `fg 12`
with a live job of pid 12 it looks up pid 2 and reports
"(2): No such process", leaving the table unchanged. -/
theorem C4_raw_pid_drops_first_digit :
    getjobpid c4jobs 12 = some ⟨12, 1, ST, "y"⟩ ∧
    do_bgfg c4jobs "fg" (some "12")
      = some ⟨[], ["(2): No such process\n"], c4jobs, none⟩ := by
  decide

/-- Counterexample to claim C5: with a foreground job of pid 7 and the
kill call failing (return -1), the interrupt relay does not leave the
shell running — it reaches unix_error, which exits the shell with status
1. -/
theorem C5_counterexample :
    sigint_handler c5jobs (-1)
      = ([(-7, SIGINT)], Outcome.exitedWithError 1 "kill error\n") ∧
    (sigint_handler c5jobs (-1)).2 ≠ Outcome.ok := by
  decide

/-- Counterexample to claim C6: two consecutive wake-ups that leave the
release flag unset make waitfg return (after its second pause) with the
flag still unset — spurious wake-ups are not tolerated indefinitely. -/
theorem C6_counterexample : waitfg (fun _ => false) = (2, false) := rfl

/-- Counterexample to claim C7: after registering handles 1, 2, 3 and
releasing handle 2, the allocator's next value is not 2, and a further
register does not hand out handle 2. -/
theorem C7_counterexample :
    (runOps initState c7ops).nextjid ≠ 2 ∧
    pid2jid ((addjob (runOps initState c7ops) 9 BG "d").1.jobs) 9 ≠ 2 := by
  decide

/-- Claim C7 amended: deletejob resets the allocator to
(maximum remaining live handle + 1), which here is max{1,3} + 1 = 4, and
the next register therefore returns handle 4, not 2. -/
theorem C7_allocator_after_release :
    (runOps initState c7ops).nextjid = 4 ∧
    maxjid (runOps initState c7ops).jobs + 1 = 4 ∧
    pid2jid ((addjob (runOps initState c7ops) 9 BG "d").1.jobs) 9 = 4 := by
  decide

/-- Claim C8.  The claim (and the spec's invariant) says handles are
unique among live jobs for every register/release sequence from the
empty table.  Running c8ops refutes it: the allocator wrap
`if (nextjid > MAXJOBS) nextjid = 1` in addjob hands out handle 1 a
second time while the job with pid 1 still holds handle 1 — slots 0 and
15 are both live with jid 1. -/
theorem C8_handle_collision :
    ¬ (liveJids (runOps initState c8ops).jobs).Nodup ∧
    slotGet (runOps initState c8ops).jobs 0 = some ⟨1, 1, BG, "c"⟩ ∧
    slotGet (runOps initState c8ops).jobs 15 = some ⟨18, 1, BG, "c"⟩ := by
  decide

/-- Claim C5 amended: when the relay's kill call fails, the failure is
reported through unix_error, which terminates the shell with exit status
1 — relay delivery failure is fatal to the shell (the stop relay exits
before reaching its table write, so the table is untouched). -/
theorem C5_kill_failure_exits (slots : List job_t) (kr : Int) (h : kr < 0) :
    (sigint_handler slots kr).2 = Outcome.exitedWithError 1 "kill error\n" ∧
    (sigtstp_handler slots kr).2.1 = Outcome.exitedWithError 1 "kill error\n" ∧
    (sigtstp_handler slots kr).2.2 = some slots := by
  simp [sigint_handler, sigtstp_handler, h]

/-- Witness for C5_kill_failure_exits at the empty table and kill
returning -1. -/
theorem C5_kill_failure_exits_witness :
    (sigint_handler initjobs (-1)).2 = Outcome.exitedWithError 1 "kill error\n" ∧
    (sigtstp_handler initjobs (-1)).2.1 = Outcome.exitedWithError 1 "kill error\n" ∧
    (sigtstp_handler initjobs (-1)).2.2 = some initjobs :=
  C5_kill_failure_exits initjobs (-1) (by decide)

/-- Claim C6 amended: waitfg tolerates at most one spurious wake-up.  If
the first wake-up shows the release flag set it returns at once;
otherwise it suspends exactly once more and then returns unconditionally,
whatever the flag's value — it does not loop until the flag is observed
set. -/
theorem C6_waitfg_two_pauses (f : Nat → Bool) :
    waitfg f = if f 0 then (1, true) else (2, f 1) := by
  cases h : f 0 <;> simp [waitfg, h]

/-- Counterexample to claim C9: the table operations themselves do not
enforce the foreground invariant — registering two jobs with state FG in
a row yields two live foreground jobs. -/
theorem C9_counterexample :
    fgCount (runOps initState
      [TableOp.reg 1 FG "a", TableOp.reg 2 FG "b"]).jobs = 2 := by
  decide

/-- Claim C3 amended: for a handle selector %n that the table's lookup
resolves to a live Job, both continue-commands act on whatever occupies
slot n-1 of the table — the continuation goes to -(jobs[n-1].pid) and it
is jobs[n-1].state that is set — which coincides with the resolved Job
exactly when that Job is stored at slot index n-1. -/
theorem C3_effect_on_slot_index (slots : List job_t) (arg : Int) (jm : job_t)
    (hres : getjobjid slots arg ≠ none)
    (hslot : slotGet slots (arg - 1) = some jm) :
    do_bgfg_core slots "bg" '%' arg =
      some ⟨[(-jm.pid, SIGCONT)],
            ["[" ++ toString arg ++ "] (" ++ toString jm.pid ++ ") " ++
             jm.cmdline],
            slots.set (arg - 1).toNat { jm with state := BG }, none⟩ ∧
    do_bgfg_core slots "fg" '%' arg =
      some ⟨[(-jm.pid, SIGCONT)], [],
            slots.set (arg - 1).toNat { jm with state := FG }, some jm.pid⟩ := by
  obtain ⟨jx, hjx⟩ := Option.ne_none_iff_exists'.mp hres
  constructor <;> simp [do_bgfg_core, slotSetInt, hslot, hjx]

/-- Witness for C3_effect_on_slot_index: a one-slot table whose job has
handle 1, so the resolved job is exactly the occupant of slot 0. -/
theorem C3_effect_on_slot_index_witness :
    do_bgfg_core [⟨50, 1, ST, "w"⟩] "bg" '%' 1 =
      some ⟨[(-50, SIGCONT)], ["[1] (50) w"], [⟨50, 1, BG, "w"⟩], none⟩ ∧
    do_bgfg_core [⟨50, 1, ST, "w"⟩] "fg" '%' 1 =
      some ⟨[(-50, SIGCONT)], [], [⟨50, 1, FG, "w"⟩], some 50⟩ := by
  have h := C3_effect_on_slot_index [⟨50, 1, ST, "w"⟩] 1 ⟨50, 1, ST, "w"⟩
    (by decide) (by decide)
  refine ⟨?_, ?_⟩
  · rw [h.1]; decide
  · rw [h.2]; decide

/-- Unfolding lemma: fgCount on a cons. -/
theorem fgCount_cons (j : job_t) (rest : List job_t) :
    fgCount (j :: rest)
      = (if j.pid ≠ 0 ∧ j.state = FG then 1 else 0) + fgCount rest := rfl

/-- Filling an empty slot adds at most one foreground job, and only when
the new job's state is FG. -/
theorem fgCount_addjobSlots (pid njid st : Int) (cmd : String) :
    ∀ slots slots2, addjobSlots slots pid njid st cmd = some slots2 →
      fgCount slots2 ≤ fgCount slots + (if st = FG then 1 else 0) := by
  intro slots
  induction slots with
  | nil => intro s2 h; simp [addjobSlots] at h
  | cons j rest ih =>
    intro s2 h
    by_cases hp : j.pid = 0
    · simp [addjobSlots, hp] at h
      subst h
      rw [fgCount_cons, fgCount_cons]
      simp [hp]
      split_ifs with h1 h2
      · omega
      · exact absurd h1.2 h2
      · omega
      · omega
    · simp [addjobSlots, hp, Option.map_eq_some'] at h
      obtain ⟨rest2, hr, rfl⟩ := h
      have := ih rest2 hr
      rw [fgCount_cons, fgCount_cons]
      omega

/-- Clearing a slot never increases the number of foreground jobs. -/
theorem fgCount_deletejobSlots (pid : Int) :
    ∀ slots slots2, deletejobSlots slots pid = some slots2 →
      fgCount slots2 ≤ fgCount slots := by
  intro slots
  induction slots with
  | nil => intro s2 h; simp [deletejobSlots] at h
  | cons j rest ih =>
    intro s2 h
    by_cases hp : j.pid = pid
    · simp [deletejobSlots, hp] at h
      subst h
      rw [fgCount_cons, fgCount_cons]
      simp [emptyJob]
    · simp [deletejobSlots, hp, Option.map_eq_some'] at h
      obtain ⟨rest2, hr, rfl⟩ := h
      have := ih rest2 hr
      rw [fgCount_cons, fgCount_cons]
      omega

/-- addjob adds at most one foreground job, and only for state FG. -/
theorem fgCount_addjob (s : ShellState) (pid st : Int) (cmd : String) :
    fgCount (addjob s pid st cmd).1.jobs ≤
      fgCount s.jobs + (if st = FG then 1 else 0) := by
  by_cases h : pid < 1
  · simp [addjob, h, Nat.le_add_right]
  · cases hadd : addjobSlots s.jobs pid s.nextjid st cmd with
    | none => simp [addjob, h, hadd, Nat.le_add_right]
    | some slots2 =>
      simp [addjob, h, hadd]
      exact fgCount_addjobSlots pid s.nextjid st cmd s.jobs slots2 hadd

/-- deletejob never increases the number of foreground jobs. -/
theorem fgCount_deletejob (s : ShellState) (pid : Int) :
    fgCount (deletejob s pid).1.jobs ≤ fgCount s.jobs := by
  by_cases h : pid < 1
  · simp [deletejob, h]
  · cases hdel : deletejobSlots s.jobs pid with
    | none => simp [deletejob, h, hdel]
    | some slots2 =>
      simp [deletejob, h, hdel]
      exact fgCount_deletejobSlots pid s.jobs slots2 hdel

/-- A foreground-guarded run preserves "at most one foreground job". -/
theorem fgCount_runOps_le : ∀ (ops : List TableOp) (s : ShellState),
    fgCount s.jobs ≤ 1 → guardedRun s ops = true →
    fgCount (runOps s ops).jobs ≤ 1 := by
  intro ops
  induction ops with
  | nil => intro s h _; simpa [runOps] using h
  | cons op rest ih =>
    intro s h hg
    have hstep : fgCount (applyOp s op).jobs ≤ 1 ∧
        guardedRun (applyOp s op) rest = true := by
      cases op with
      | reg p st c =>
        rw [guardedRun, Bool.and_eq_true] at hg
        obtain ⟨hc, hrest⟩ := hg
        refine ⟨?_, hrest⟩
        by_cases hst : st = FG
        · have h0 : fgCount s.jobs = 0 := by
            simp [hst] at hc
            exact hc
          have hb := fgCount_addjob s p st c
          rw [if_pos hst] at hb
          simp only [applyOp]
          omega
        · have hb := fgCount_addjob s p st c
          rw [if_neg hst] at hb
          simp only [applyOp]
          omega
      | rel p =>
        rw [guardedRun, Bool.and_eq_true] at hg
        obtain ⟨hc, hrest⟩ := hg
        refine ⟨?_, hrest⟩
        have hb := fgCount_deletejob s p
        simp only [applyOp]
        omega
    have := ih (applyOp s op) hstep.1 hstep.2
    simpa [runOps] using this

/-- Claim C9 amended: for all register/release sequences from the empty
table in which every register with state Foreground is issued while no
live Job has state Foreground (the discipline the shell's launch path
enforces through waitfg), at most one live Job has state Foreground.
Every sampled instant of a guarded run is itself the final state of a
guarded run, so the quantification over all sequences covers all
instants. -/
theorem C9_guarded_fg_unique (ops : List TableOp)
    (h : guardedRun initState ops = true) :
    fgCount (runOps initState ops).jobs ≤ 1 :=
  fgCount_runOps_le ops initState (by decide) h

/-- Witness for C9_guarded_fg_unique on a guarded three-operation run. -/
theorem C9_guarded_fg_unique_witness :
    guardedRun initState
      [TableOp.reg 1 FG "a", TableOp.rel 1, TableOp.reg 2 FG "b"] = true ∧
    fgCount (runOps initState
      [TableOp.reg 1 FG "a", TableOp.rel 1, TableOp.reg 2 FG "b"]).jobs ≤ 1 :=
  ⟨by decide, C9_guarded_fg_unique _ (by decide)⟩

/-- The slot-filling loop of addjob writes exactly the first empty slot. -/
theorem addjobSlots_eq (pid njid st : Int) (cmd : String) :
    ∀ slots, addjobSlots slots pid njid st cmd =
      (firstEmptyIdx slots).map (fun i => slots.set i ⟨pid, njid, st, cmd⟩) := by
  intro slots
  induction slots with
  | nil => rfl
  | cons j rest ih =>
    by_cases hp : j.pid = 0
    · simp [addjobSlots, firstEmptyIdx, hp]
    · simp [addjobSlots, firstEmptyIdx, hp, ih]
      cases firstEmptyIdx rest <;> simp

/-- The slot-clearing loop of deletejob clears exactly the first slot
whose pid matches. -/
theorem deletejobSlots_eq (pid : Int) :
    ∀ slots, deletejobSlots slots pid =
      (firstPidIdx slots pid).map (fun i => slots.set i emptyJob) := by
  intro slots
  induction slots with
  | nil => rfl
  | cons j rest ih =>
    by_cases hp : j.pid = pid
    · simp [deletejobSlots, firstPidIdx, hp]
    · simp [deletejobSlots, firstPidIdx, hp, ih]
      cases firstPidIdx rest pid <;> simp

/-- Claim C10: on the success paths, addjob fills exactly the
lowest-indexed empty slot (every other slot unchanged, List.set touching
only index i) and advances the handle allocator; deletejob clears exactly
the first slot whose pid matches (every other slot unchanged) and resets
the allocator — in both operations the full resulting state is the one
slot's update plus the nextjid update, nothing else. -/
theorem C10_frame (slots : List job_t) (nj pid st : Int) (cmd : String) :
    (∀ i : Nat, 1 ≤ pid → firstEmptyIdx slots = some i →
      addjob ⟨slots, nj⟩ pid st cmd =
        (⟨slots.set i ⟨pid, nj, st, cmd⟩,
          if nj + 1 > (MAXJOBS : Int) then 1 else nj + 1⟩, true)) ∧
    (∀ i : Nat, 1 ≤ pid → firstPidIdx slots pid = some i →
      deletejob ⟨slots, nj⟩ pid =
        (⟨slots.set i emptyJob, maxjid (slots.set i emptyJob) + 1⟩, true)) := by
  constructor
  · intro i hpid hidx
    have hnot : ¬ pid < 1 := by omega
    simp [addjob, hnot, addjobSlots_eq, hidx]
  · intro i hpid hidx
    have hnot : ¬ pid < 1 := by omega
    simp [deletejob, hnot, deletejobSlots_eq, hidx]

/-- Witness for C10_frame: register pid 5 into a one-slot empty table,
then release it again. -/
theorem C10_frame_witness :
    addjob ⟨[emptyJob], 1⟩ 5 FG "x" = (⟨[⟨5, 1, FG, "x"⟩], 2⟩, true) ∧
    deletejob ⟨[⟨5, 1, FG, "x"⟩], 2⟩ 5 = (⟨[emptyJob], 1⟩, true) := by
  have h1 := (C10_frame [emptyJob] 1 5 FG "x").1 0 (by decide) (by decide)
  have h2 := (C10_frame [⟨5, 1, FG, "x"⟩] 2 5 FG "x").2 0 (by decide) (by decide)
  refine ⟨?_, ?_⟩
  · rw [h1]; decide
  · rw [h2]; decide

end Tsh
